import Mathlib

/-!
# ran-lcm: the Group controller

A shallow embedding of `controllers/group_controller.go` and the properties of
its reconciliation loop.

* The Go code talks to the cluster through the `client.Client` interface.  The
  interface is embedded as a record of functions over an arbitrary type `σ` of
  store states, so that any store behaviour (including failing reads and
  failing writes) is an instance: a read answers from the state, `Create`
  answers and returns the next state.  `storeClient` is the plain in-memory
  store: `Get` answers not-found for an absent key, `Create` refuses a taken
  key.
* `controllerutil.SetControllerReference` belongs to an external library; it is
  a field of the reconciler record (it stands for the library function applied
  to `r.Scheme`).
* Every client call is recorded, in the order issued, in the `calls` field of
  the outcome.  Calls to the logger are not modelled.
-/

set_option autoImplicit false

namespace RanLcm

/-! ## Errors -/

/-- The `metav1.StatusReason` of an error, as read by `errors.ReasonForError`. -/
inductive StatusReason where
  | Unknown
  | NotFound
  | AlreadyExists
  | Conflict
  | InternalError
  | Timeout
  deriving DecidableEq, Repr

/-- A Go `error` value: its status reason and its message.  A `nil` error is
`none : Option Error`. -/
structure Error where
  Reason : StatusReason
  Message : String
  deriving DecidableEq, Repr

/-- `errors.IsNotFound`: the reason of the error is `NotFound`. -/
def IsNotFound (err : Error) : Bool :=
  err.Reason = StatusReason.NotFound

/-- `errors.IsAlreadyExists`: the reason of the error is `AlreadyExists`. -/
def IsAlreadyExists (err : Error) : Bool :=
  err.Reason = StatusReason.AlreadyExists

/-! ## Unstructured objects -/

/-- The values an `unstructured.Unstructured` holds (`interface{}` restricted to
strings, booleans, maps and slices).  A Go map is a list of key/value pairs with
distinct keys. -/
inductive Value where
  | str (s : String)
  | bool (b : Bool)
  | obj (fields : List (String × Value))
  | arr (items : List Value)

/-- Reading `m[k]` of a Go map. -/
def lookupField (k : String) : List (String × Value) → Option Value
  | [] => none
  | (k', v) :: rest => if k' = k then some v else lookupField k rest

/-- The assignment `m[k] = v` of a Go map. -/
def setField (k : String) (v : Value) : List (String × Value) → List (String × Value)
  | [] => [(k, v)]
  | (k', v') :: rest => if k' = k then (k', v) :: rest else (k', v') :: setField k v rest

/-- `unstructured.NestedFieldNoCopy`: follow a path of map keys. -/
def NestedFieldNoCopy : Value → List String → Option Value
  | v, [] => some v
  | Value.obj fields, k :: ks =>
    match lookupField k fields with
    | some v => NestedFieldNoCopy v ks
    | none => none
  | _, _ :: _ => none

/-- `unstructured.Unstructured`: the field `Object` is a `map[string]interface{}`. -/
structure Unstructured where
  Object : List (String × Value)

/-- The helper `getNestedString`: the string at a path, `""` when there is none. -/
def getNestedString (u : Unstructured) (path : List String) : String :=
  match NestedFieldNoCopy (Value.obj u.Object) path with
  | some (Value.str s) => s
  | _ => ""

/-- `(*Unstructured).GetName`. -/
def Unstructured.GetName (u : Unstructured) : String :=
  getNestedString u ["metadata", "name"]

/-- `(*Unstructured).GetNamespace`. -/
def Unstructured.GetNamespace (u : Unstructured) : String :=
  getNestedString u ["metadata", "namespace"]

/-- `(*Unstructured).GetKind`. -/
def Unstructured.GetKind (u : Unstructured) : String :=
  getNestedString u ["kind"]

/-- `(*Unstructured).GetAPIVersion`. -/
def Unstructured.GetAPIVersion (u : Unstructured) : String :=
  getNestedString u ["apiVersion"]

/-- `schema.GroupVersionKind`. -/
structure GroupVersionKind where
  Group : String
  Version : String
  Kind : String
  deriving DecidableEq, Repr

/-- `schema.GroupVersion.String`, on the group and version of a kind. -/
def GroupVersionKind.apiVersion (gvk : GroupVersionKind) : String :=
  if gvk.Group.length > 0 then gvk.Group ++ "/" ++ gvk.Version else gvk.Version

/-- `(*Unstructured).SetGroupVersionKind`: sets `apiVersion` and `kind`. -/
def Unstructured.SetGroupVersionKind (u : Unstructured) (gvk : GroupVersionKind) :
    Unstructured :=
  { Object := setField "kind" (Value.str gvk.Kind)
      (setField "apiVersion" (Value.str gvk.apiVersion) u.Object) }

/-- The kind both `ensurePlacementRule` and `newPlacementRule` spell out. -/
def placementRuleGVK : GroupVersionKind :=
  { Group := "apps.open-cluster-management.io", Kind := "PlacementRule", Version := "v1" }

/-! ## The Group resource and the request -/

/-- Modelled from the spec: `ranv1alpha1.GroupSpec` (package `api/v1alpha1`),
of which the controller reads the ordered list `Clusters` of target names. -/
structure GroupSpec where
  Clusters : List String
  deriving DecidableEq, Repr

/-- Modelled from the spec: `ranv1alpha1.Group` (package `api/v1alpha1`), with
identity `(Namespace, Name)` and a `Spec`. -/
structure Group where
  Name : String
  Namespace : String
  Spec : GroupSpec
  deriving DecidableEq, Repr

/-- `types.NamespacedName`; `client.ObjectKey` is the same type. -/
structure NamespacedName where
  Namespace : String
  Name : String
  deriving DecidableEq, Repr

/-- `client.ObjectKey`. -/
abbrev ObjectKey := NamespacedName

/-- `ctrl.Request`. -/
structure Request where
  NamespacedName : NamespacedName
  deriving DecidableEq, Repr

/-- `ctrl.Result`; `Result.zero` is the Go literal `ctrl.Result{}`. -/
structure Result where
  Requeue : Bool
  RequeueAfter : Nat
  deriving DecidableEq, Repr

/-- The Go literal `ctrl.Result{}`. -/
def Result.zero : Result :=
  { Requeue := false, RequeueAfter := 0 }

/-! ## The client interface and the reconciler -/

/-- The methods of `client.Client` the controller calls.  `GetGroup` is `Get`
into a typed `*ranv1alpha1.Group`; `Get` is `Get` into an unstructured object
whose kind has been set to `gvk`.  Reads leave the store as it is. -/
structure Client (σ : Type) where
  GetGroup : NamespacedName → σ → Except Error Group
  Get : ObjectKey → GroupVersionKind → σ → Except Error Unstructured
  Create : Unstructured → σ → Option Error × σ

/-- `GroupReconciler`.  `SetControllerReference owner obj` stands for
`controllerutil.SetControllerReference(owner, obj, r.Scheme)`: it either fails
or returns the object as the library has changed it in place. -/
structure GroupReconciler (σ : Type) where
  Client : Client σ
  SetControllerReference : Group → Unstructured → Except Error Unstructured

/-- A call on the client, as recorded in an outcome. -/
inductive Call where
  | GetGroup (key : NamespacedName)
  | Get (key : ObjectKey) (gvk : GroupVersionKind)
  | Create (obj : Unstructured)

/-- What `ensurePlacementRule` leaves behind: the returned error, the state of
the store and the client calls it issued. -/
structure Outcome (σ : Type) where
  err : Option Error
  state : σ
  calls : List Call

/-- What `Reconcile` leaves behind: the returned pair, the state of the store
and the client calls it issued. -/
structure ReconcileOutcome (σ : Type) where
  result : Result
  err : Option Error
  state : σ
  calls : List Call

/-! ## The controller -/

/-- `newPlacementRule`: the map literal followed by `SetGroupVersionKind`. -/
def newPlacementRule (group : Group) (cluster : String) : Unstructured :=
  let u : Unstructured :=
    { Object :=
        [ ("metadata", Value.obj
            [ ("name", Value.str (group.Name ++ "-" ++ cluster ++ "-" ++ "placement-rule")),
              ("namespace", Value.str group.Namespace),
              ("labels", Value.obj [("app", Value.str "ran-lcm")]) ]),
          ("spec", Value.obj
            [ ("clusterConditions", Value.arr [Value.obj [("type", Value.str "OK")]]),
              ("clusters", Value.arr [Value.obj [("name", Value.str cluster)]]) ]) ] }
  u.SetGroupVersionKind
    { Group := "apps.open-cluster-management.io", Kind := "PlacementRule", Version := "v1" }

/-- The `client.ObjectKey` literal of the existence check in
`ensurePlacementRule`. -/
def lookupKey (group : Group) (v : String) : ObjectKey :=
  { Name := group.Name ++ "-" ++ v ++ "placement-rule", Namespace := group.Namespace }

/-- The `for` loop of `ensurePlacementRule`, over the targets still to come. -/
def ensurePlacementRuleLoop {σ : Type} (r : GroupReconciler σ) (group : Group) :
    List String → σ → Outcome σ
  | [], s => { err := none, state := s, calls := [] }
  | v :: rest, s =>
    let pr := newPlacementRule group v
    match r.SetControllerReference group pr with
    | Except.error err => { err := some err, state := s, calls := [] }
    | Except.ok pr =>
      let gvk : GroupVersionKind :=
        { Group := "apps.open-cluster-management.io", Kind := "PlacementRule", Version := "v1" }
      let key := lookupKey group v
      match r.Client.Get key gvk s with
      | Except.error err =>
        if IsNotFound err then
          -- `err = r.Client.Create(ctx, pr)`: the error is assigned and never read
          let s1 := (r.Client.Create pr s).2
          let out := ensurePlacementRuleLoop r group rest s1
          { out with calls := Call.Get key gvk :: Call.Create pr :: out.calls }
        else
          { err := some err, state := s, calls := [Call.Get key gvk] }
      | Except.ok _ =>
        let out := ensurePlacementRuleLoop r group rest s
        { out with calls := Call.Get key gvk :: out.calls }

/-- `(*GroupReconciler).ensurePlacementRule`. -/
def ensurePlacementRule {σ : Type} (r : GroupReconciler σ) (group : Group) (s : σ) :
    Outcome σ :=
  ensurePlacementRuleLoop r group group.Spec.Clusters s

/-- `(*GroupReconciler).Reconcile`. -/
def Reconcile {σ : Type} (r : GroupReconciler σ) (req : Request) (s : σ) :
    ReconcileOutcome σ :=
  match r.Client.GetGroup req.NamespacedName s with
  | Except.error err =>
    if IsNotFound err then
      { result := Result.zero, err := none, state := s,
        calls := [Call.GetGroup req.NamespacedName] }
    else
      { result := Result.zero, err := some err, state := s,
        calls := [Call.GetGroup req.NamespacedName] }
  | Except.ok group =>
    -- `err = r.ensurePlacementRule(ctx, group)`: the error is assigned and never read
    let out := ensurePlacementRule r group s
    { result := Result.zero, err := none, state := out.state,
      calls := Call.GetGroup req.NamespacedName :: out.calls }

/-! ## The in-memory store -/

/-- The content of a store: the Group objects and the unstructured objects. -/
structure Store where
  groups : List Group
  objects : List Unstructured

/-- An unstructured object is the one of kind `gvk` at `key`. -/
def isAt (gvk : GroupVersionKind) (key : ObjectKey) (u : Unstructured) : Bool :=
  decide (u.GetAPIVersion = gvk.apiVersion) && decide (u.GetKind = gvk.Kind) &&
    decide (u.GetNamespace = key.Namespace) && decide (u.GetName = key.Name)

/-- The stored object of kind `gvk` at `key`, if any. -/
def Store.find (s : Store) (gvk : GroupVersionKind) (key : ObjectKey) : Option Unstructured :=
  s.objects.find? (isAt gvk key)

/-- The key under which the store files an unstructured object. -/
def Unstructured.key (u : Unstructured) : ObjectKey :=
  { Namespace := u.GetNamespace, Name := u.GetName }

/-- The kind check and the key check of `Create`: some stored object has the
apiVersion, kind, namespace and name of `u`. -/
def Store.holds (s : Store) (u : Unstructured) : Bool :=
  s.objects.any fun o =>
    decide (o.GetAPIVersion = u.GetAPIVersion) && decide (o.GetKind = u.GetKind) &&
      decide (o.GetNamespace = u.GetNamespace) && decide (o.GetName = u.GetName)

/-- The not-found error of the store. -/
def notFoundError (key : NamespacedName) : Error :=
  { Reason := StatusReason.NotFound, Message := key.Name ++ " not found" }

/-- The already-exists error of the store. -/
def alreadyExistsError (u : Unstructured) : Error :=
  { Reason := StatusReason.AlreadyExists, Message := u.GetName ++ " already exists" }

/-- The in-memory store as a client: a read returns the stored object or
not-found; `Create` on a taken name fails with
already-exists and changes nothing, and otherwise adds the object. -/
def storeClient : Client Store where
  GetGroup key s :=
    match s.groups.find? (fun g => decide (g.Namespace = key.Namespace) && decide (g.Name = key.Name)) with
    | some g => Except.ok g
    | none => Except.error (notFoundError key)
  Get key gvk s :=
    match s.find gvk key with
    | some u => Except.ok u
    | none => Except.error (notFoundError key)
  Create u s :=
    if s.holds u then (some (alreadyExistsError u), s)
    else (none, { s with objects := s.objects ++ [u] })

/-- A reconciler on the in-memory store, for a given behaviour of
`SetControllerReference`. -/
def storeReconciler (setRef : Group → Unstructured → Except Error Unstructured) :
    GroupReconciler Store :=
  { Client := storeClient, SetControllerReference := setRef }

/-! ## A model of the ownership library, for concrete runs -/

/-- The owner reference the library writes for a Group owner. -/
def ownerReference (owner : Group) : Value :=
  Value.obj
    [ ("apiVersion", Value.str "ran.openshift.io/v1alpha1"),
      ("kind", Value.str "Group"),
      ("name", Value.str owner.Name),
      ("controller", Value.bool true),
      ("blockOwnerDeletion", Value.bool true) ]

/-- A registered owner type: the owner reference is written into
`metadata.ownerReferences` and nothing else changes. -/
def linkOwner (owner : Group) (u : Unstructured) : Except Error Unstructured :=
  let metadata :=
    match lookupField "metadata" u.Object with
    | some (Value.obj fields) => fields
    | _ => []
  Except.ok
    { Object := setField "metadata"
        (Value.obj (setField "ownerReferences" (Value.arr [ownerReference owner]) metadata))
        u.Object }

/-- An owner type missing from the scheme: the library fails on every object. -/
def unregisteredOwner (_owner : Group) (_u : Unstructured) : Except Error Unstructured :=
  Except.error { Reason := StatusReason.Unknown, Message := "no kind is registered for the type" }

/-- The Dependents of a store: its objects of kind PlacementRule. -/
def Store.dependents (s : Store) : List Unstructured :=
  s.objects.filter fun u =>
    decide (u.GetAPIVersion = placementRuleGVK.apiVersion) && decide (u.GetKind = placementRuleGVK.Kind)

/-- The name the spec gives the Dependent of a target. -/
def dependentName (group : Group) (target : String) : String :=
  group.Name ++ "-" ++ target ++ "-placement-rule"

/-- Some stored object has this apiVersion, kind, namespace and name. -/
def Store.occupied (s : Store) (apiVersion kind ns name : String) : Prop :=
  ∃ o ∈ s.objects, o.GetAPIVersion = apiVersion ∧ o.GetKind = kind ∧
    o.GetNamespace = ns ∧ o.GetName = name

/-- Setting the controller reference succeeds on the candidate of each target and
keeps its apiVersion, kind, namespace and name. -/
def OwnershipKeepsIdentity (setRef : Group → Unstructured → Except Error Unstructured)
    (group : Group) (targets : List String) : Prop :=
  ∀ v ∈ targets, ∃ pr, setRef group (newPlacementRule group v) = Except.ok pr ∧
    pr.GetAPIVersion = (newPlacementRule group v).GetAPIVersion ∧
    pr.GetKind = (newPlacementRule group v).GetKind ∧
    pr.GetNamespace = (newPlacementRule group v).GetNamespace ∧
    pr.GetName = (newPlacementRule group v).GetName

/-- The request for a Group: its namespaced name. -/
def requestFor (group : Group) : Request :=
  { NamespacedName := { Namespace := group.Namespace, Name := group.Name } }

/-- A Group that lists the target `a` twice. -/
def dupGroup : Group :=
  { Name := "g", Namespace := "ns", Spec := { Clusters := ["a", "a"] } }

/-- A Group with the two targets `east` and `west`. -/
def eastWestGroup : Group :=
  { Name := "g", Namespace := "ns", Spec := { Clusters := ["east", "west"] } }

/-- The store `t` is the store `s` with objects added at the end: the same
Groups, and the objects of `s` followed by further ones. -/
def Store.extendedBy (s t : Store) : Prop :=
  t.groups = s.groups ∧ ∃ ext, t.objects = s.objects ++ ext

/-- The in-memory store with injected failures: a read of a key for which
`getFault` has an error fails with it, a `Create` of an object for which
`createFault` has an error fails with it and changes nothing; otherwise the
store answers as `storeClient`. -/
def faultyClient (getFault : ObjectKey → Option Error)
    (createFault : Unstructured → Option Error) : Client Store where
  GetGroup := storeClient.GetGroup
  Get key gvk s :=
    match getFault key with
    | some e => Except.error e
    | none => storeClient.Get key gvk s
  Create u s :=
    match createFault u with
    | some e => (some e, s)
    | none => storeClient.Create u s

/-- A Group with the single target `a`. -/
def singleGroup : Group :=
  { Name := "g", Namespace := "ns", Spec := { Clusters := ["a"] } }

/-- A server-side failure. -/
def internalError : Error :=
  { Reason := StatusReason.InternalError, Message := "internal error" }

/-- A Group with the two targets `a` and `b`. -/
def abGroup : Group :=
  { Name := "g", Namespace := "ns", Spec := { Clusters := ["a", "b"] } }

/-- A transient failure of the store. -/
def timeoutError : Error :=
  { Reason := StatusReason.Timeout, Message := "timeout" }

/-- The candidate of a target with the owner reference of the Group. -/
def ownedCandidate (group : Group) (v : String) : Unstructured :=
  match linkOwner group (newPlacementRule group v) with
  | Except.ok pr => pr
  | Except.error _ => newPlacementRule group v

/-- The read of the existence-check key of target `b` of the Group `g` times
out; every other read answers from the store. -/
def timeoutOnB (key : ObjectKey) : Option Error :=
  if key.Name = "g-bplacement-rule" then some timeoutError else none

/-- A Group whose second target is its first target followed by a hyphen. -/
def dashGroup : Group :=
  { Name := "g", Namespace := "ns", Spec := { Clusters := ["a", "a-"] } }

/-- A Group that lists the target `a-` twice, after the target `a`. -/
def dashDupGroup : Group :=
  { Name := "g", Namespace := "ns", Spec := { Clusters := ["a", "a-", "a-"] } }

/-- The objects passed to Create, in the order of the calls. -/
def createdObjects : List Call → List Unstructured
  | [] => []
  | Call.Create obj :: rest => obj :: createdObjects rest
  | _ :: rest => createdObjects rest

/-- The keys of the existence checks, in the order of the calls. -/
def checkedKeys : List Call → List ObjectKey
  | [] => []
  | Call.Get key _ :: rest => key :: checkedKeys rest
  | _ :: rest => checkedKeys rest

/-- The candidates of the targets on which setting the controller reference
succeeds, as the library leaves them, in the order of the targets. -/
def ownedCandidates {σ : Type} (r : GroupReconciler σ) (group : Group) :
    List String → List Unstructured
  | [] => []
  | v :: rest =>
    match r.SetControllerReference group (newPlacementRule group v) with
    | Except.ok pr => pr :: ownedCandidates r group rest
    | Except.error _ => ownedCandidates r group rest

/-- The store state after the Create calls of a list of calls, applied in order
from `s`; the other calls are reads. -/
def replayCreates {σ : Type} (c : Client σ) : List Call → σ → σ
  | [], s => s
  | Call.Create obj :: rest, s => replayCreates c rest (c.Create obj s).2
  | _ :: rest, s => replayCreates c rest s

/-! # Properties -/

/-! ## Strings -/

theorem str_append_left_cancel {a b c : String} (h : a ++ b = a ++ c) : b = c := by
  have h' := congrArg String.data h
  simp only [String.data_append] at h'
  exact String.ext (List.append_cancel_left h')

theorem str_append_right_cancel {a b c : String} (h : a ++ c = b ++ c) : a = b := by
  have h' := congrArg String.data h
  simp only [String.data_append] at h'
  exact String.ext (List.append_cancel_right h')

theorem dependentName_eq (group : Group) (v : String) :
    group.Name ++ "-" ++ v ++ "-" ++ "placement-rule" = dependentName group v := by
  unfold dependentName
  rw [String.append_assoc (group.Name ++ "-" ++ v) "-" "placement-rule"]
  rfl

theorem dependentName_injective (group : Group) {v w : String}
    (h : dependentName group v = dependentName group w) : v = w := by
  unfold dependentName at h
  have h1 := str_append_right_cancel h
  exact str_append_left_cancel h1

theorem lookupName_eq_dependentName (group : Group) {v w : String}
    (h : (lookupKey group w).Name = dependentName group v) : w = v ++ "-" := by
  unfold dependentName lookupKey at h
  simp only at h
  have e : group.Name ++ "-" ++ v ++ "-placement-rule"
      = group.Name ++ "-" ++ (v ++ "-") ++ "placement-rule" := by
    have : "-placement-rule" = "-" ++ "placement-rule" := by decide
    rw [this]
    simp only [String.append_assoc]
  rw [e] at h
  exact str_append_left_cancel (str_append_right_cancel h)

/-! ## The candidate -/

@[simp] theorem newPlacementRule_GetName (group : Group) (v : String) :
    (newPlacementRule group v).GetName = dependentName group v := by
  rw [← dependentName_eq]
  simp [newPlacementRule, Unstructured.GetName, getNestedString, NestedFieldNoCopy, lookupField,
    setField, Unstructured.SetGroupVersionKind]

@[simp] theorem newPlacementRule_GetNamespace (group : Group) (v : String) :
    (newPlacementRule group v).GetNamespace = group.Namespace := by
  simp [newPlacementRule, Unstructured.GetNamespace, getNestedString, NestedFieldNoCopy, lookupField,
    setField, Unstructured.SetGroupVersionKind]

@[simp] theorem newPlacementRule_GetKind (group : Group) (v : String) :
    (newPlacementRule group v).GetKind = "PlacementRule" := by
  simp [newPlacementRule, Unstructured.GetKind, getNestedString, NestedFieldNoCopy, lookupField,
    setField, Unstructured.SetGroupVersionKind]

@[simp] theorem newPlacementRule_GetAPIVersion (group : Group) (v : String) :
    (newPlacementRule group v).GetAPIVersion = "apps.open-cluster-management.io/v1" := by
  simp [newPlacementRule, Unstructured.GetAPIVersion, getNestedString, NestedFieldNoCopy, lookupField,
    setField, Unstructured.SetGroupVersionKind, GroupVersionKind.apiVersion]
  decide

theorem placementRuleGVK_apiVersion :
    placementRuleGVK.apiVersion = "apps.open-cluster-management.io/v1" := by decide

/-! ## One turn of the loop -/

section Loop

variable {σ : Type} (r : GroupReconciler σ) (group : Group)

theorem loop_nil (s : σ) :
    ensurePlacementRuleLoop r group [] s = { err := none, state := s, calls := [] } := rfl

theorem loop_cons_setRef_error {v : String} (rest : List String) (s : σ) {e : Error}
    (h : r.SetControllerReference group (newPlacementRule group v) = Except.error e) :
    ensurePlacementRuleLoop r group (v :: rest) s = { err := some e, state := s, calls := [] } := by
  simp [ensurePlacementRuleLoop, h]

theorem loop_cons_found {v : String} (rest : List String) (s : σ) {pr u : Unstructured}
    (h : r.SetControllerReference group (newPlacementRule group v) = Except.ok pr)
    (hget : r.Client.Get (lookupKey group v) placementRuleGVK s = Except.ok u) :
    ensurePlacementRuleLoop r group (v :: rest) s =
      { ensurePlacementRuleLoop r group rest s with
        calls := Call.Get (lookupKey group v) placementRuleGVK ::
          (ensurePlacementRuleLoop r group rest s).calls } := by
  have hget' := hget
  unfold placementRuleGVK at hget'
  simp [ensurePlacementRuleLoop, h, hget', placementRuleGVK]

theorem loop_cons_notFound {v : String} (rest : List String) (s : σ) {pr : Unstructured}
    {e : Error}
    (h : r.SetControllerReference group (newPlacementRule group v) = Except.ok pr)
    (hget : r.Client.Get (lookupKey group v) placementRuleGVK s = Except.error e)
    (hnf : IsNotFound e = true) :
    ensurePlacementRuleLoop r group (v :: rest) s =
      { ensurePlacementRuleLoop r group rest (r.Client.Create pr s).2 with
        calls := Call.Get (lookupKey group v) placementRuleGVK :: Call.Create pr ::
          (ensurePlacementRuleLoop r group rest (r.Client.Create pr s).2).calls } := by
  have hget' := hget
  unfold placementRuleGVK at hget'
  simp [ensurePlacementRuleLoop, h, hget', hnf, placementRuleGVK]

theorem loop_cons_get_error {v : String} (rest : List String) (s : σ) {pr : Unstructured}
    {e : Error}
    (h : r.SetControllerReference group (newPlacementRule group v) = Except.ok pr)
    (hget : r.Client.Get (lookupKey group v) placementRuleGVK s = Except.error e)
    (hnf : IsNotFound e = false) :
    ensurePlacementRuleLoop r group (v :: rest) s =
      { err := some e, state := s, calls := [Call.Get (lookupKey group v) placementRuleGVK] } := by
  have hget' := hget
  unfold placementRuleGVK at hget'
  simp [ensurePlacementRuleLoop, h, hget', hnf, placementRuleGVK]

end Loop

/-! ## The in-memory store -/

theorem find_eq_none_iff (s : Store) (gvk : GroupVersionKind) (key : ObjectKey) :
    s.find gvk key = none ↔ ¬ s.occupied gvk.apiVersion gvk.Kind key.Namespace key.Name := by
  simp [Store.find, Store.occupied, isAt, List.find?_eq_none]

theorem holds_iff (s : Store) (u : Unstructured) :
    s.holds u = true ↔ s.occupied u.GetAPIVersion u.GetKind u.GetNamespace u.GetName := by
  simp [Store.holds, Store.occupied, List.any_eq_true, and_assoc]

theorem storeClient_Get_notFound {s : Store} {gvk : GroupVersionKind} {key : ObjectKey}
    (h : ¬ s.occupied gvk.apiVersion gvk.Kind key.Namespace key.Name) :
    storeClient.Get key gvk s = Except.error (notFoundError key) := by
  have := (find_eq_none_iff s gvk key).2 h
  simp [storeClient, this]

theorem storeClient_Get_found {s : Store} {gvk : GroupVersionKind} {key : ObjectKey}
    (h : s.occupied gvk.apiVersion gvk.Kind key.Namespace key.Name) :
    ∃ u, storeClient.Get key gvk s = Except.ok u := by
  cases hf : s.find gvk key with
  | none => exact absurd h ((find_eq_none_iff s gvk key).1 hf)
  | some u => exact ⟨u, by simp [storeClient, hf]⟩

theorem IsNotFound_notFoundError (key : NamespacedName) : IsNotFound (notFoundError key) = true := by
  simp [IsNotFound, notFoundError]

theorem storeClient_Create_fresh {s : Store} {u : Unstructured}
    (h : ¬ s.occupied u.GetAPIVersion u.GetKind u.GetNamespace u.GetName) :
    storeClient.Create u s = (none, { s with objects := s.objects ++ [u] }) := by
  have : s.holds u = false := by
    cases hh : s.holds u with
    | false => rfl
    | true => exact absurd ((holds_iff s u).1 hh) h
  simp [storeClient, this]

theorem storeClient_Create_taken {s : Store} {u : Unstructured}
    (h : s.occupied u.GetAPIVersion u.GetKind u.GetNamespace u.GetName) :
    storeClient.Create u s = (some (alreadyExistsError u), s) := by
  have := (holds_iff s u).2 h
  simp [storeClient, this]

/-! ## Ownership -/

theorem linkOwner_newPlacementRule (group : Group) (v : String) :
    ∃ pr, linkOwner group (newPlacementRule group v) = Except.ok pr ∧
      pr.GetAPIVersion = (newPlacementRule group v).GetAPIVersion ∧
      pr.GetKind = (newPlacementRule group v).GetKind ∧
      pr.GetNamespace = (newPlacementRule group v).GetNamespace ∧
      pr.GetName = (newPlacementRule group v).GetName := by
  refine ⟨_, rfl, ?_, ?_, ?_, ?_⟩ <;>
    simp [newPlacementRule, Unstructured.GetName, Unstructured.GetNamespace, Unstructured.GetKind,
      Unstructured.GetAPIVersion, getNestedString, NestedFieldNoCopy, lookupField,
      setField, Unstructured.SetGroupVersionKind]

theorem linkOwner_keepsIdentity (group : Group) (targets : List String) :
    OwnershipKeepsIdentity linkOwner group targets :=
  fun v _ => linkOwner_newPlacementRule group v

theorem occupied_append (s : Store) (u : Unstructured) (av k ns n : String) :
    Store.occupied { s with objects := s.objects ++ [u] } av k ns n ↔
      s.occupied av k ns n ∨
        (u.GetAPIVersion = av ∧ u.GetKind = k ∧ u.GetNamespace = ns ∧ u.GetName = n) := by
  simp [Store.occupied, or_and_right, exists_or]

/-- From a store in which neither the existence-check key nor the Dependent name
of any remaining target is taken, the loop adds one object per target. -/
theorem loop_fresh (setRef : Group → Unstructured → Except Error Unstructured) (group : Group) :
    ∀ (vs : List String) (s : Store),
      OwnershipKeepsIdentity setRef group vs →
      vs.Nodup →
      (∀ v ∈ vs, ∀ w ∈ vs, w ≠ v ++ "-") →
      (∀ v ∈ vs,
        ¬ s.occupied "apps.open-cluster-management.io/v1" "PlacementRule" group.Namespace
            (lookupKey group v).Name ∧
        ¬ s.occupied "apps.open-cluster-management.io/v1" "PlacementRule" group.Namespace
            (dependentName group v)) →
      ∃ ds : List Unstructured,
        (ensurePlacementRuleLoop (storeReconciler setRef) group vs s).state
            = { s with objects := s.objects ++ ds } ∧
        (ensurePlacementRuleLoop (storeReconciler setRef) group vs s).err = none ∧
        ds.map Unstructured.key
            = vs.map (fun v => { Namespace := group.Namespace, Name := dependentName group v }) ∧
        ∀ d ∈ ds, d.GetAPIVersion = "apps.open-cluster-management.io/v1" ∧
          d.GetKind = "PlacementRule" := by
  intro vs
  induction vs with
  | nil =>
    intro s _ _ _ _
    exact ⟨[], by simp [loop_nil], by simp [loop_nil], rfl, by simp⟩
  | cons v rest ih =>
    intro s hown hnd hdash hfree
    obtain ⟨pr, hset, hav, hk, hns, hn⟩ := hown v (List.mem_cons_self _ _)
    simp only [newPlacementRule_GetAPIVersion, newPlacementRule_GetKind,
      newPlacementRule_GetNamespace, newPlacementRule_GetName] at hav hk hns hn
    have hset' : (storeReconciler setRef).SetControllerReference group (newPlacementRule group v)
        = Except.ok pr := hset
    obtain ⟨hlk, hdn⟩ := hfree v (List.mem_cons_self _ _)
    have hget : (storeReconciler setRef).Client.Get (lookupKey group v) placementRuleGVK s
        = Except.error (notFoundError (lookupKey group v)) := by
      apply storeClient_Get_notFound
      rw [placementRuleGVK_apiVersion]
      exact hlk
    have hcreate : ((storeReconciler setRef).Client.Create pr s).2
        = { s with objects := s.objects ++ [pr] } := by
      have : storeClient.Create pr s = (none, { s with objects := s.objects ++ [pr] }) := by
        apply storeClient_Create_fresh
        rw [hav, hk, hns, hn]
        exact hdn
      show (storeClient.Create pr s).2 = _
      rw [this]
    rw [loop_cons_notFound _ _ rest s hset' hget (IsNotFound_notFoundError _), hcreate]
    have hnd' := (List.nodup_cons.1 hnd)
    obtain ⟨ds, hst, herr, hkeys, hkind⟩ := ih { s with objects := s.objects ++ [pr] }
      (fun w hw => hown w (List.mem_cons_of_mem _ hw)) hnd'.2
      (fun a ha b hb => hdash a (List.mem_cons_of_mem _ ha) b (List.mem_cons_of_mem _ hb))
      (by
        intro w hw
        obtain ⟨h1, h2⟩ := hfree w (List.mem_cons_of_mem _ hw)
        constructor
        · rw [occupied_append]
          rintro (h | ⟨_, _, _, h⟩)
          · exact h1 h
          · rw [hn] at h
            exact hdash v (List.mem_cons_self _ _) w (List.mem_cons_of_mem _ hw)
              (lookupName_eq_dependentName group h.symm)
        · rw [occupied_append]
          rintro (h | ⟨_, _, _, h⟩)
          · exact h2 h
          · rw [hn] at h
            have := dependentName_injective group h
            exact hnd'.1 (this ▸ hw))
    refine ⟨pr :: ds, ?_, ?_, ?_, ?_⟩
    · simp [hst]
    · simpa using herr
    · simp [hkeys, Unstructured.key, hns, hn]
    · intro d hd
      rcases List.mem_cons.1 hd with rfl | hd
      · exact ⟨hav, hk⟩
      · exact hkind d hd

/-! ## C1: a store without Dependents -/

theorem Reconcile_fetched {σ : Type} (r : GroupReconciler σ) (req : Request) (s : σ)
    {group : Group} (h : r.Client.GetGroup req.NamespacedName s = Except.ok group) :
    Reconcile r req s =
      { result := Result.zero, err := none, state := (ensurePlacementRule r group s).state,
        calls := Call.GetGroup req.NamespacedName :: (ensurePlacementRule r group s).calls } := by
  simp [Reconcile, h]

theorem placementRuleGVK_Kind : placementRuleGVK.Kind = "PlacementRule" := rfl

theorem not_occupied_of_no_dependents {s : Store} (h : s.dependents = []) (ns n : String) :
    ¬ s.occupied "apps.open-cluster-management.io/v1" "PlacementRule" ns n := by
  rintro ⟨o, ho, hav, hk, _, _⟩
  have : o ∈ s.dependents := by
    simp [Store.dependents, List.mem_filter, ho, hav, hk, placementRuleGVK_apiVersion,
      placementRuleGVK_Kind]
  rw [h] at this
  exact absurd this (List.not_mem_nil _)

/-- C1, as stated, fails: the Group `g` in namespace `ns` lists the target `a`
twice (N = 2), the store holds the Group and no Dependent, and after one run of
Reconcile the store holds one Dependent, not two. -/
theorem reconcile_duplicate_targets_one_dependent :
    storeClient.GetGroup (requestFor dupGroup).NamespacedName
        { groups := [dupGroup], objects := [] } = Except.ok dupGroup ∧
      Store.dependents { groups := [dupGroup], objects := [] } = [] ∧
      dupGroup.Spec.Clusters.length = 2 ∧
      (Reconcile (storeReconciler linkOwner) (requestFor dupGroup)
        { groups := [dupGroup], objects := [] }).state.dependents.length = 1 ∧
      (Reconcile (storeReconciler linkOwner) (requestFor dupGroup)
        { groups := [dupGroup], objects := [] }).state.dependents.length
        ≠ dupGroup.Spec.Clusters.length := by
  refine ⟨rfl, rfl, rfl, ?_, ?_⟩ <;> decide

/-- C1, amended: for every Group whose targets are pairwise distinct, none of
them being another target followed by `-`, and every in-memory store that holds
the Group and no Dependent, with ownership-setting that succeeds and keeps the
identity of the candidates, one run of Reconcile leaves the store with exactly
as many Dependents as targets, the i-th being named
`<group name>-<i-th target>-placement-rule` in the Group's namespace. -/
theorem reconcile_empty_store_one_dependent_per_target
    (setRef : Group → Unstructured → Except Error Unstructured) (req : Request)
    (group : Group) (s : Store)
    (hfetch : storeClient.GetGroup req.NamespacedName s = Except.ok group)
    (hempty : s.dependents = [])
    (hown : OwnershipKeepsIdentity setRef group group.Spec.Clusters)
    (hnodup : group.Spec.Clusters.Nodup)
    (hdash : ∀ v ∈ group.Spec.Clusters, ∀ w ∈ group.Spec.Clusters, w ≠ v ++ "-") :
    (Reconcile (storeReconciler setRef) req s).state.dependents.length
        = group.Spec.Clusters.length ∧
      (Reconcile (storeReconciler setRef) req s).state.dependents.map Unstructured.key
        = group.Spec.Clusters.map
            (fun v => { Namespace := group.Namespace, Name := dependentName group v }) := by
  have hfetch' : (storeReconciler setRef).Client.GetGroup req.NamespacedName s
      = Except.ok group := hfetch
  obtain ⟨ds, hst, _, hkeys, hkind⟩ := loop_fresh setRef group group.Spec.Clusters s hown hnodup
    hdash (fun v _ => ⟨not_occupied_of_no_dependents hempty _ _,
      not_occupied_of_no_dependents hempty _ _⟩)
  have hdeps : (Reconcile (storeReconciler setRef) req s).state.dependents = ds := by
    rw [Reconcile_fetched _ req s hfetch']
    show Store.dependents (ensurePlacementRuleLoop _ group group.Spec.Clusters s).state = ds
    rw [hst]
    have h1 : s.objects.filter (fun u =>
        decide (u.GetAPIVersion = placementRuleGVK.apiVersion) &&
          decide (u.GetKind = placementRuleGVK.Kind)) = [] := hempty
    have h2 : ds.filter (fun u =>
        decide (u.GetAPIVersion = placementRuleGVK.apiVersion) &&
          decide (u.GetKind = placementRuleGVK.Kind)) = ds := by
      rw [List.filter_eq_self]
      intro d hd
      obtain ⟨a, b⟩ := hkind d hd
      simp [a, b, placementRuleGVK_apiVersion, placementRuleGVK_Kind]
    simp only [Store.dependents, List.filter_append, h1, h2, List.nil_append]
  rw [hdeps]
  refine ⟨?_, hkeys⟩
  have := congrArg List.length hkeys
  simpa using this

/-- C1, amended, on the Group `g` with the targets `east` and `west` and a store holding
only the Group: the two Dependents `g-east-placement-rule` and
`g-west-placement-rule` in namespace `ns`. -/
theorem reconcile_empty_store_one_dependent_per_target_witness :
    ((Reconcile (storeReconciler linkOwner) (requestFor eastWestGroup)
        { groups := [eastWestGroup], objects := [] }).state.dependents.length = 2 ∧
      (Reconcile (storeReconciler linkOwner) (requestFor eastWestGroup)
        { groups := [eastWestGroup], objects := [] }).state.dependents.map Unstructured.key
        = [{ Namespace := "ns", Name := "g-east-placement-rule" },
           { Namespace := "ns", Name := "g-west-placement-rule" }]) :=
  reconcile_empty_store_one_dependent_per_target linkOwner (requestFor eastWestGroup)
    eastWestGroup { groups := [eastWestGroup], objects := [] } rfl rfl
    (linkOwner_keepsIdentity _ _) (by decide) (by decide)

/-! ## C2: running Reconcile twice -/

theorem extendedBy_refl (s : Store) : s.extendedBy s :=
  ⟨rfl, [], by simp⟩

theorem extendedBy_trans {s t u : Store} (h1 : s.extendedBy t) (h2 : t.extendedBy u) :
    s.extendedBy u := by
  obtain ⟨g1, e1, h1⟩ := h1
  obtain ⟨g2, e2, h2⟩ := h2
  exact ⟨g2.trans g1, e1 ++ e2, by rw [h2, h1, List.append_assoc]⟩

theorem occupied_mono {s t : Store} (h : s.extendedBy t) {av k ns n : String}
    (ho : s.occupied av k ns n) : t.occupied av k ns n := by
  obtain ⟨_, ext, he⟩ := h
  obtain ⟨o, hmem, hp⟩ := ho
  exact ⟨o, by rw [he]; exact List.mem_append_left _ hmem, hp⟩

theorem storeClient_Create_extends (u : Unstructured) (s : Store) :
    s.extendedBy (storeClient.Create u s).2 := by
  by_cases h : s.occupied u.GetAPIVersion u.GetKind u.GetNamespace u.GetName
  · rw [storeClient_Create_taken h]
    exact extendedBy_refl s
  · rw [storeClient_Create_fresh h]
    exact ⟨rfl, [u], rfl⟩

theorem storeClient_Create_occupied (u : Unstructured) (s : Store) :
    (storeClient.Create u s).2.occupied u.GetAPIVersion u.GetKind u.GetNamespace u.GetName := by
  by_cases h : s.occupied u.GetAPIVersion u.GetKind u.GetNamespace u.GetName
  · rw [storeClient_Create_taken h]
    exact h
  · rw [storeClient_Create_fresh h]
    exact ⟨u, by simp, rfl, rfl, rfl, rfl⟩

/-- On the in-memory store a target whose existence-check key is taken is
skipped. -/
theorem store_loop_state_found (setRef : Group → Unstructured → Except Error Unstructured)
    (group : Group) {v : String} (rest : List String) (s : Store) {pr : Unstructured}
    (hset : setRef group (newPlacementRule group v) = Except.ok pr)
    (h : s.occupied placementRuleGVK.apiVersion placementRuleGVK.Kind
      (lookupKey group v).Namespace (lookupKey group v).Name) :
    (ensurePlacementRuleLoop (storeReconciler setRef) group (v :: rest) s).state
      = (ensurePlacementRuleLoop (storeReconciler setRef) group rest s).state := by
  obtain ⟨u, hu⟩ := storeClient_Get_found h
  have hset' : (storeReconciler setRef).SetControllerReference group (newPlacementRule group v)
      = Except.ok pr := hset
  have hget : (storeReconciler setRef).Client.Get (lookupKey group v) placementRuleGVK s
      = Except.ok u := hu
  rw [loop_cons_found _ _ rest s hset' hget]

/-- On the in-memory store a target whose existence-check key is free has its
candidate passed to Create. -/
theorem store_loop_state_notFound (setRef : Group → Unstructured → Except Error Unstructured)
    (group : Group) {v : String} (rest : List String) (s : Store) {pr : Unstructured}
    (hset : setRef group (newPlacementRule group v) = Except.ok pr)
    (h : ¬ s.occupied placementRuleGVK.apiVersion placementRuleGVK.Kind
      (lookupKey group v).Namespace (lookupKey group v).Name) :
    (ensurePlacementRuleLoop (storeReconciler setRef) group (v :: rest) s).state
      = (ensurePlacementRuleLoop (storeReconciler setRef) group rest
          (storeClient.Create pr s).2).state := by
  have hset' : (storeReconciler setRef).SetControllerReference group (newPlacementRule group v)
      = Except.ok pr := hset
  have hget : (storeReconciler setRef).Client.Get (lookupKey group v) placementRuleGVK s
      = Except.error (notFoundError (lookupKey group v)) := storeClient_Get_notFound h
  rw [loop_cons_notFound _ _ rest s hset' hget (IsNotFound_notFoundError _)]
  rfl

/-- The loop only adds objects to the in-memory store. -/
theorem store_loop_extends (setRef : Group → Unstructured → Except Error Unstructured)
    (group : Group) :
    ∀ (vs : List String) (s : Store),
      s.extendedBy (ensurePlacementRuleLoop (storeReconciler setRef) group vs s).state := by
  intro vs
  induction vs with
  | nil => intro s; exact extendedBy_refl s
  | cons v rest ih =>
    intro s
    cases hset : setRef group (newPlacementRule group v) with
    | error e =>
      have hset' : (storeReconciler setRef).SetControllerReference group
          (newPlacementRule group v) = Except.error e := hset
      rw [loop_cons_setRef_error _ _ rest s hset']
      exact extendedBy_refl s
    | ok pr =>
      by_cases h : s.occupied placementRuleGVK.apiVersion placementRuleGVK.Kind
          (lookupKey group v).Namespace (lookupKey group v).Name
      · rw [store_loop_state_found setRef group rest s hset h]
        exact ih s
      · rw [store_loop_state_notFound setRef group rest s hset h]
        exact extendedBy_trans (storeClient_Create_extends pr s) (ih _)

/-- Once the loop has run from `s`, running it on the resulting store, or on any
store that extends the result, changes nothing. -/
theorem store_loop_stable (setRef : Group → Unstructured → Except Error Unstructured)
    (group : Group) :
    ∀ (vs : List String) (s t : Store),
      (ensurePlacementRuleLoop (storeReconciler setRef) group vs s).state.extendedBy t →
      (ensurePlacementRuleLoop (storeReconciler setRef) group vs t).state = t := by
  intro vs
  induction vs with
  | nil => intro s t _; rfl
  | cons v rest ih =>
    intro s t hext
    cases hset : setRef group (newPlacementRule group v) with
    | error e =>
      have hset' : (storeReconciler setRef).SetControllerReference group
          (newPlacementRule group v) = Except.error e := hset
      rw [loop_cons_setRef_error _ _ rest t hset']
    | ok pr =>
      by_cases h : s.occupied placementRuleGVK.apiVersion placementRuleGVK.Kind
          (lookupKey group v).Namespace (lookupKey group v).Name
      · rw [store_loop_state_found setRef group rest s hset h] at hext
        have hst : s.extendedBy t := extendedBy_trans (store_loop_extends setRef group rest s) hext
        rw [store_loop_state_found setRef group rest t hset (occupied_mono hst h)]
        exact ih s t hext
      · rw [store_loop_state_notFound setRef group rest s hset h] at hext
        have hst : (storeClient.Create pr s).2.extendedBy t :=
          extendedBy_trans (store_loop_extends setRef group rest _) hext
        have hocc := occupied_mono hst (storeClient_Create_occupied pr s)
        by_cases h' : t.occupied placementRuleGVK.apiVersion placementRuleGVK.Kind
            (lookupKey group v).Namespace (lookupKey group v).Name
        · rw [store_loop_state_found setRef group rest t hset h']
          exact ih _ t hext
        · rw [store_loop_state_notFound setRef group rest t hset h',
            storeClient_Create_taken hocc]
          exact ih _ t hext

/-- C2: for every request and every in-memory store (with any behaviour of
ownership-setting), the store after a second run of Reconcile, started right
after the first, is the store after the first run. -/
theorem reconcile_twice_store_fixed
    (setRef : Group → Unstructured → Except Error Unstructured) (req : Request) (s : Store) :
    (Reconcile (storeReconciler setRef) req
        (Reconcile (storeReconciler setRef) req s).state).state
      = (Reconcile (storeReconciler setRef) req s).state := by
  cases hfetch : (storeReconciler setRef).Client.GetGroup req.NamespacedName s with
  | error e =>
    have h1 : (Reconcile (storeReconciler setRef) req s).state = s := by
      by_cases hnf : IsNotFound e = true <;> simp [Reconcile, hfetch, hnf]
    rw [h1, h1]
  | ok group =>
    have h1 : (Reconcile (storeReconciler setRef) req s).state
        = (ensurePlacementRuleLoop (storeReconciler setRef) group group.Spec.Clusters s).state := by
      rw [Reconcile_fetched _ req s hfetch]
      rfl
    have hext := store_loop_extends setRef group group.Spec.Clusters s
    have hfetch2 : (storeReconciler setRef).Client.GetGroup req.NamespacedName
        (ensurePlacementRuleLoop (storeReconciler setRef) group group.Spec.Clusters s).state
        = Except.ok group := by
      have hg := hext.1
      have : storeClient.GetGroup req.NamespacedName s = Except.ok group := hfetch
      show storeClient.GetGroup req.NamespacedName _ = Except.ok group
      simp only [storeClient] at this ⊢
      rw [hg]
      exact this
    rw [h1, Reconcile_fetched _ req _ hfetch2]
    exact store_loop_stable setRef group group.Spec.Clusters s _ (extendedBy_refl _)

/-! ## C3: the Group is gone -/

/-- C3: for every client, store state and request whose Group fetch answers a
not-found error, Reconcile returns the zero Result and a nil error, leaves the
store as it was, and its only client call is the fetch itself (no existence
check, no Create). -/
theorem reconcile_group_not_found {σ : Type} (r : GroupReconciler σ) (req : Request) (s : σ)
    (err : Error) (hfetch : r.Client.GetGroup req.NamespacedName s = Except.error err)
    (hnf : IsNotFound err = true) :
    (Reconcile r req s).result = Result.zero ∧
      (Reconcile r req s).err = none ∧
      (Reconcile r req s).state = s ∧
      (Reconcile r req s).calls = [Call.GetGroup req.NamespacedName] := by
  simp [Reconcile, hfetch, hnf]

/-- C3 on the empty in-memory store: the fetch of `ns/g` answers not-found. -/
theorem reconcile_group_not_found_witness :
    (Reconcile (storeReconciler linkOwner) (requestFor eastWestGroup)
        { groups := [], objects := [] }).result = Result.zero ∧
      (Reconcile (storeReconciler linkOwner) (requestFor eastWestGroup)
        { groups := [], objects := [] }).err = none ∧
      (Reconcile (storeReconciler linkOwner) (requestFor eastWestGroup)
        { groups := [], objects := [] }).state = { groups := [], objects := [] } ∧
      (Reconcile (storeReconciler linkOwner) (requestFor eastWestGroup)
        { groups := [], objects := [] }).calls
        = [Call.GetGroup { Namespace := "ns", Name := "g" }] :=
  reconcile_group_not_found (storeReconciler linkOwner) (requestFor eastWestGroup)
    { groups := [], objects := [] } (notFoundError (requestFor eastWestGroup).NamespacedName)
    rfl rfl

/-! ## C4: a store that already holds some Dependents -/

/-- The example of C4: the store holds the Dependent of `east`, the Group lists
`east` and `west`; Reconcile adds the Dependent of `west` after the one of
`east`, which stays as it was (its Create is refused). -/
theorem reconcile_east_preseeded_adds_west :
    (Reconcile (storeReconciler linkOwner) (requestFor eastWestGroup)
        { groups := [eastWestGroup], objects := [ownedCandidate eastWestGroup "east"] }).state
      = { groups := [eastWestGroup],
          objects := [ownedCandidate eastWestGroup "east", ownedCandidate eastWestGroup "west"] } :=
  rfl

/-- C4 fails on the code: the Group `g` has the targets `a` and `a-`, and the
store holds the Dependent `g-a-placement-rule` of `a` and none for `a-`.  The
existence check for `a-` asks for `g-a-placement-rule`, finds the Dependent of
`a`, and no Create is issued for `a-`: Reconcile leaves the store as it was,
without the Dependent `g-a--placement-rule`. -/
theorem reconcile_skips_target_with_colliding_key :
    (lookupKey dashGroup "a-").Name = (ownedCandidate dashGroup "a").GetName ∧
    dependentName dashGroup "a-" = "g-a--placement-rule" ∧
    (Store.dependents
        { groups := [dashGroup], objects := [ownedCandidate dashGroup "a"] }).map
          Unstructured.GetName = ["g-a-placement-rule"] ∧
    (Reconcile (storeReconciler linkOwner) (requestFor dashGroup)
        { groups := [dashGroup], objects := [ownedCandidate dashGroup "a"] }).calls
      = [Call.GetGroup (requestFor dashGroup).NamespacedName,
         Call.Get (lookupKey dashGroup "a") placementRuleGVK,
         Call.Create (ownedCandidate dashGroup "a"),
         Call.Get (lookupKey dashGroup "a-") placementRuleGVK] ∧
    (Reconcile (storeReconciler linkOwner) (requestFor dashGroup)
        { groups := [dashGroup], objects := [ownedCandidate dashGroup "a"] }).state
      = { groups := [dashGroup], objects := [ownedCandidate dashGroup "a"] } ∧
    (Reconcile (storeReconciler linkOwner) (requestFor dashGroup)
        { groups := [dashGroup], objects := [ownedCandidate dashGroup "a"] }).state.dependents.map
          Unstructured.GetName = ["g-a-placement-rule"] := by
  refine ⟨?_, ?_, ?_, rfl, rfl, ?_⟩ <;> decide

/-! ## C5: the key of the existence check -/

theorem lookupKey_Name_ne_dependentName (group : Group) (v : String) :
    (lookupKey group v).Name ≠ dependentName group v := by
  intro h
  have h1 := congrArg String.length (lookupName_eq_dependentName group h)
  simp [String.length_append] at h1
  have h2 : "-".length = 1 := by decide
  omega

/-- C5 fails on the code: for every Group and target the existence check of
`ensurePlacementRule` asks for the name `<group name>-<target>placement-rule`
(no hyphen after the target), which is never the name
`<group name>-<target>-placement-rule` of the candidate; only the namespaces
agree.  For the Group `g` and the target `east` the first call is a Get of
`g-eastplacement-rule` and the candidate is `g-east-placement-rule`. -/
theorem existence_check_key_is_not_candidate_key :
    (∀ (group : Group) (v : String),
        (lookupKey group v).Name = group.Name ++ "-" ++ v ++ "placement-rule" ∧
        (newPlacementRule group v).GetName = group.Name ++ "-" ++ v ++ "-placement-rule" ∧
        (lookupKey group v).Name ≠ (newPlacementRule group v).GetName ∧
        (lookupKey group v).Namespace = (newPlacementRule group v).GetNamespace) ∧
      (ensurePlacementRule (storeReconciler linkOwner) eastWestGroup
          { groups := [eastWestGroup], objects := [] }).calls.head?
        = some (Call.Get { Namespace := "ns", Name := "g-eastplacement-rule" } placementRuleGVK) ∧
      (newPlacementRule eastWestGroup "east").GetName = "g-east-placement-rule" := by
  refine ⟨fun group v => ⟨rfl, ?_, ?_, ?_⟩, rfl, by decide⟩
  · rw [newPlacementRule_GetName]; rfl
  · rw [newPlacementRule_GetName]; exact lookupKey_Name_ne_dependentName group v
  · rw [newPlacementRule_GetNamespace]; rfl

/-! ## C6: what Reconcile returns -/

/-- C6: for every client, request and store state, Reconcile returns the error
`e` exactly when the fetch of the Group fails with `e` and `e` is not a
not-found error; its Result is always the zero Result; and when the fetch
succeeds it returns a nil error whatever `ensurePlacementRule` returns. -/
theorem reconcile_returns_only_the_fetch_error {σ : Type} (r : GroupReconciler σ)
    (req : Request) (s : σ) :
    (∀ e : Error, (Reconcile r req s).err = some e ↔
        (r.Client.GetGroup req.NamespacedName s = Except.error e ∧ IsNotFound e = false)) ∧
      (Reconcile r req s).result = Result.zero ∧
      (∀ group : Group, r.Client.GetGroup req.NamespacedName s = Except.ok group →
        (Reconcile r req s).err = none ∧
        (Reconcile r req s).state = (ensurePlacementRule r group s).state) := by
  cases hfetch : r.Client.GetGroup req.NamespacedName s with
  | error err =>
    by_cases hnf : IsNotFound err = true
    · refine ⟨fun e => ?_, by simp [Reconcile, hfetch, hnf], fun g hg => by cases hg⟩
      constructor
      · intro h; simp [Reconcile, hfetch, hnf] at h
      · rintro ⟨h1, h2⟩
        cases h1
        rw [hnf] at h2
        cases h2
    · refine ⟨fun e => ?_, by simp [Reconcile, hfetch, hnf], fun g hg => by cases hg⟩
      constructor
      · intro h
        simp [Reconcile, hfetch, hnf] at h
        subst h
        exact ⟨rfl, by simpa using hnf⟩
      · rintro ⟨h1, _⟩
        cases h1
        simp [Reconcile, hfetch, hnf]
  | ok group =>
    refine ⟨fun e => ?_, by simp [Reconcile, hfetch], fun g hg => ?_⟩
    · constructor
      · intro h; simp [Reconcile, hfetch] at h
      · rintro ⟨h1, _⟩; cases h1
    · cases hg
      simp [Reconcile, hfetch]

/-- C6 on a store holding the Group `g`, with an owner type missing from the
scheme: `ensurePlacementRule` returns the ownership error and Reconcile returns
nil with the zero Result. -/
theorem reconcile_returns_only_the_fetch_error_witness :
    (ensurePlacementRule (storeReconciler unregisteredOwner) eastWestGroup
        { groups := [eastWestGroup], objects := [] }).err
      = some { Reason := StatusReason.Unknown, Message := "no kind is registered for the type" } ∧
    (Reconcile (storeReconciler unregisteredOwner) (requestFor eastWestGroup)
        { groups := [eastWestGroup], objects := [] }).err = none ∧
    (Reconcile (storeReconciler unregisteredOwner) (requestFor eastWestGroup)
        { groups := [eastWestGroup], objects := [] }).result = Result.zero :=
  ⟨rfl,
    ((reconcile_returns_only_the_fetch_error (storeReconciler unregisteredOwner)
      (requestFor eastWestGroup) { groups := [eastWestGroup], objects := [] }).2.2
        eastWestGroup rfl).1,
    (reconcile_returns_only_the_fetch_error (storeReconciler unregisteredOwner)
      (requestFor eastWestGroup) { groups := [eastWestGroup], objects := [] }).2.1⟩

/-! ## C7: a failing Create -/

/-- C7 fails on the code: the Group `g` has the single target `a`, the store is
empty, so the existence check reports not-found, and Create fails with an
internal error; `ensurePlacementRule` issues the Create and returns a nil
error. -/
theorem ensurePlacementRule_drops_create_error :
    (faultyClient (fun _ => none) (fun _ => some internalError)).Get
        (lookupKey singleGroup "a") placementRuleGVK { groups := [singleGroup], objects := [] }
      = Except.error (notFoundError (lookupKey singleGroup "a")) ∧
    (∀ u s, ((faultyClient (fun _ => none) (fun _ => some internalError)).Create u s).1
      = some internalError) ∧
    (∃ pr, linkOwner singleGroup (newPlacementRule singleGroup "a") = Except.ok pr ∧
      (ensurePlacementRule
          { Client := faultyClient (fun _ => none) (fun _ => some internalError),
            SetControllerReference := linkOwner }
          singleGroup { groups := [singleGroup], objects := [] }).calls
        = [Call.Get (lookupKey singleGroup "a") placementRuleGVK, Call.Create pr]) ∧
    (ensurePlacementRule
        { Client := faultyClient (fun _ => none) (fun _ => some internalError),
          SetControllerReference := linkOwner }
        singleGroup { groups := [singleGroup], objects := [] }).err = none := by
  refine ⟨rfl, fun _ _ => rfl, ⟨_, rfl, rfl⟩, rfl⟩

/-! ## C8: Create fails with already-exists -/

/-- A prefix of targets that is processed without error hands its store state to
the remaining targets. -/
theorem loop_append {σ : Type} (r : GroupReconciler σ) (group : Group) :
    ∀ (pre rest : List String) (s : σ),
      (ensurePlacementRuleLoop r group pre s).err = none →
      ensurePlacementRuleLoop r group (pre ++ rest) s =
        { err := (ensurePlacementRuleLoop r group rest
            (ensurePlacementRuleLoop r group pre s).state).err,
          state := (ensurePlacementRuleLoop r group rest
            (ensurePlacementRuleLoop r group pre s).state).state,
          calls := (ensurePlacementRuleLoop r group pre s).calls ++
            (ensurePlacementRuleLoop r group rest
              (ensurePlacementRuleLoop r group pre s).state).calls } := by
  intro pre
  induction pre with
  | nil => intro rest s _; simp [loop_nil]
  | cons v pre ih =>
    intro rest s hpre
    cases hset : r.SetControllerReference group (newPlacementRule group v) with
    | error e =>
      rw [loop_cons_setRef_error r group pre s hset] at hpre
      cases hpre
    | ok pr =>
      cases hget : r.Client.Get (lookupKey group v) placementRuleGVK s with
      | ok u =>
        rw [loop_cons_found r group pre s hset hget] at hpre
        rw [List.cons_append, loop_cons_found r group (pre ++ rest) s hset hget,
          loop_cons_found r group pre s hset hget, ih rest s hpre]
        simp
      | error e =>
        by_cases hnf : IsNotFound e = true
        · rw [loop_cons_notFound r group pre s hset hget hnf] at hpre
          rw [List.cons_append, loop_cons_notFound r group (pre ++ rest) s hset hget hnf,
            loop_cons_notFound r group pre s hset hget hnf, ih rest _ hpre]
          simp
        · have hnf' : IsNotFound e = false := by simpa using hnf
          rw [loop_cons_get_error r group pre s hset hget hnf'] at hpre
          cases hpre

/-- C8, as stated, fails: the Group `g` has the targets `a` and `b`, the store
holds the Dependent of `a`, and the read for `b` times out.  For `a` the
existence check reports not-found and Create fails with already-exists;
`ensurePlacementRule` then returns the timeout of `b`, not nil. -/
theorem create_already_exists_then_later_error :
    storeClient.Get (lookupKey abGroup "a") placementRuleGVK
        { groups := [abGroup], objects := [ownedCandidate abGroup "a"] }
      = Except.error (notFoundError (lookupKey abGroup "a")) ∧
    (storeClient.Create (ownedCandidate abGroup "a")
        { groups := [abGroup], objects := [ownedCandidate abGroup "a"] }).1
      = some (alreadyExistsError (ownedCandidate abGroup "a")) ∧
    (ensurePlacementRule
        { Client := faultyClient timeoutOnB (fun _ => none), SetControllerReference := linkOwner }
        abGroup { groups := [abGroup], objects := [ownedCandidate abGroup "a"] }).calls
      = [Call.Get (lookupKey abGroup "a") placementRuleGVK,
         Call.Create (ownedCandidate abGroup "a"),
         Call.Get (lookupKey abGroup "b") placementRuleGVK] ∧
    (ensurePlacementRule
        { Client := faultyClient timeoutOnB (fun _ => none), SetControllerReference := linkOwner }
        abGroup { groups := [abGroup], objects := [ownedCandidate abGroup "a"] }).err
      = some timeoutError ∧
    (ensurePlacementRule
        { Client := faultyClient timeoutOnB (fun _ => none), SetControllerReference := linkOwner }
        abGroup { groups := [abGroup], objects := [ownedCandidate abGroup "a"] }).err
      ≠ none := by
  refine ⟨rfl, rfl, rfl, rfl, ?_⟩
  decide

/-- C8, amended: for every client, Group and store state, if the targets before
`v` are processed without error, and for `v` ownership-setting succeeds, the
existence check reports not-found and Create fails with already-exists, then
`ensurePlacementRule` goes on with the targets after `v` from the state that
Create left: its error, final state and further calls are those of the remaining
targets, so it returns nil exactly when none of them fails, and Reconcile
returns success with the zero Result. -/
theorem create_already_exists_does_not_stop_the_loop {σ : Type} (r : GroupReconciler σ)
    (req : Request) (group : Group) (pre post : List String) (v : String) (s s2 : σ)
    (pr : Unstructured) (e ec : Error)
    (hfetch : r.Client.GetGroup req.NamespacedName s = Except.ok group)
    (htargets : group.Spec.Clusters = pre ++ v :: post)
    (hpre : (ensurePlacementRuleLoop r group pre s).err = none)
    (hset : r.SetControllerReference group (newPlacementRule group v) = Except.ok pr)
    (hget : r.Client.Get (lookupKey group v) placementRuleGVK
      (ensurePlacementRuleLoop r group pre s).state = Except.error e)
    (hnf : IsNotFound e = true)
    (hcreate : r.Client.Create pr (ensurePlacementRuleLoop r group pre s).state = (some ec, s2))
    (_hexists : IsAlreadyExists ec = true) :
    (ensurePlacementRule r group s).err = (ensurePlacementRuleLoop r group post s2).err ∧
      (ensurePlacementRule r group s).state = (ensurePlacementRuleLoop r group post s2).state ∧
      (ensurePlacementRule r group s).calls
        = (ensurePlacementRuleLoop r group pre s).calls ++
            Call.Get (lookupKey group v) placementRuleGVK :: Call.Create pr ::
            (ensurePlacementRuleLoop r group post s2).calls ∧
      (Reconcile r req s).err = none ∧
      (Reconcile r req s).result = Result.zero := by
  have hrun : ensurePlacementRule r group s
      = ensurePlacementRuleLoop r group (pre ++ v :: post) s := by
    unfold ensurePlacementRule
    rw [htargets]
  rw [hrun, loop_append r group pre (v :: post) s hpre,
    loop_cons_notFound r group post _ hset hget hnf, Reconcile_fetched r req s hfetch, hcreate]
  exact ⟨rfl, rfl, rfl, rfl, rfl⟩

/-- C8, amended, on the Group `g` that lists `a` twice and a store holding only
the Group: the second Create fails with already-exists, no target remains, and
nil is returned. -/
theorem create_already_exists_does_not_stop_the_loop_witness :
    (ensurePlacementRule (storeReconciler linkOwner) dupGroup
        { groups := [dupGroup], objects := [] }).err = none ∧
      (ensurePlacementRule (storeReconciler linkOwner) dupGroup
        { groups := [dupGroup], objects := [] }).state
        = { groups := [dupGroup], objects := [ownedCandidate dupGroup "a"] } ∧
      (ensurePlacementRule (storeReconciler linkOwner) dupGroup
        { groups := [dupGroup], objects := [] }).calls
        = [Call.Get (lookupKey dupGroup "a") placementRuleGVK,
           Call.Create (ownedCandidate dupGroup "a"),
           Call.Get (lookupKey dupGroup "a") placementRuleGVK,
           Call.Create (ownedCandidate dupGroup "a")] ∧
      (Reconcile (storeReconciler linkOwner) (requestFor dupGroup)
        { groups := [dupGroup], objects := [] }).err = none ∧
      (Reconcile (storeReconciler linkOwner) (requestFor dupGroup)
        { groups := [dupGroup], objects := [] }).result = Result.zero :=
  create_already_exists_does_not_stop_the_loop (storeReconciler linkOwner) (requestFor dupGroup)
    dupGroup ["a"] [] "a" { groups := [dupGroup], objects := [] }
    { groups := [dupGroup], objects := [ownedCandidate dupGroup "a"] }
    (ownedCandidate dupGroup "a") (notFoundError (lookupKey dupGroup "a"))
    (alreadyExistsError (ownedCandidate dupGroup "a")) rfl rfl rfl rfl rfl rfl rfl rfl

/-! ## C9: a target listed twice -/

/-- C9 fails on the code: the Group `g` lists the targets `a`, `a-`, `a-`, and
the store holds no Dependent.  Both existence checks for `a-` ask for
`g-a-placement-rule`, which the first target has just created, so no Create is
issued for `a-`: after Reconcile the store holds no Dependent
`g-a--placement-rule` for the duplicated target, where the claim has exactly
one.  Neither `ensurePlacementRule` nor Reconcile returns an error. -/
theorem reconcile_duplicate_target_without_dependent :
    dashDupGroup.Spec.Clusters.count "a-" = 2 ∧
    dependentName dashDupGroup "a-" = "g-a--placement-rule" ∧
    Store.dependents { groups := [dashDupGroup], objects := [] } = [] ∧
    (Reconcile (storeReconciler linkOwner) (requestFor dashDupGroup)
        { groups := [dashDupGroup], objects := [] }).state.dependents.map Unstructured.GetName
      = ["g-a-placement-rule"] ∧
    ((Reconcile (storeReconciler linkOwner) (requestFor dashDupGroup)
        { groups := [dashDupGroup], objects := [] }).state.dependents.filter
          (fun u => decide (u.GetName = dependentName dashDupGroup "a-"))).length = 0 ∧
    (ensurePlacementRule (storeReconciler linkOwner) dashDupGroup
        { groups := [dashDupGroup], objects := [] }).err = none ∧
    (Reconcile (storeReconciler linkOwner) (requestFor dashDupGroup)
        { groups := [dashDupGroup], objects := [] }).err = none := by
  refine ⟨?_, ?_, rfl, ?_, ?_, rfl, rfl⟩ <;> decide

/-! ## C10: the candidate -/

/-- C10: for every Group and cluster string, `newPlacementRule` (a total
function of the Group and the string, without access to the store) returns an
object of kind `PlacementRule` and apiVersion `apps.open-cluster-management.io/v1`
whose `metadata.namespace` is the Group's namespace, whose `metadata.name` is
`<group name>-<cluster>-placement-rule`, whose `metadata.labels` is exactly
`{app: ran-lcm}`, whose `spec.clusterConditions` is exactly `[{type: OK}]` and
whose `spec.clusters` is exactly `[{name: <cluster>}]`. -/
theorem newPlacementRule_shape (group : Group) (cluster : String) :
    (newPlacementRule group cluster).GetKind = "PlacementRule" ∧
    (newPlacementRule group cluster).GetAPIVersion = "apps.open-cluster-management.io/v1" ∧
    (newPlacementRule group cluster).GetNamespace = group.Namespace ∧
    (newPlacementRule group cluster).GetName
      = group.Name ++ "-" ++ cluster ++ "-placement-rule" ∧
    NestedFieldNoCopy (Value.obj (newPlacementRule group cluster).Object) ["metadata", "labels"]
      = some (Value.obj [("app", Value.str "ran-lcm")]) ∧
    NestedFieldNoCopy (Value.obj (newPlacementRule group cluster).Object)
        ["spec", "clusterConditions"]
      = some (Value.arr [Value.obj [("type", Value.str "OK")]]) ∧
    NestedFieldNoCopy (Value.obj (newPlacementRule group cluster).Object) ["spec", "clusters"]
      = some (Value.arr [Value.obj [("name", Value.str cluster)]]) := by
  refine ⟨newPlacementRule_GetKind group cluster, newPlacementRule_GetAPIVersion group cluster,
    newPlacementRule_GetNamespace group cluster, newPlacementRule_GetName group cluster,
    ?_, ?_, ?_⟩ <;>
  simp [newPlacementRule, NestedFieldNoCopy, lookupField, setField,
    Unstructured.SetGroupVersionKind]

/-! ## C11: the loop stops at the first failing target -/

/-- C11: for every client, Group and store state, let `v` be the first target
that fails: the targets before it are processed without error, and for `v`
either setting the controller reference fails with `e`, or it succeeds and the
existence check fails with `e`, an error other than not-found.  Then
`ensurePlacementRule` returns exactly `e`; the store state is the one the
earlier targets left, so what they created stays; and the calls are those of the
earlier targets, followed by the one Get for `v` when the existence check is what
failed: no Get and no Create is issued for a later target. -/
theorem ensurePlacementRule_stops_at_first_failure {σ : Type} (r : GroupReconciler σ)
    (group : Group) (pre post : List String) (v : String) (s : σ) (e : Error)
    (htargets : group.Spec.Clusters = pre ++ v :: post)
    (hpre : (ensurePlacementRuleLoop r group pre s).err = none)
    (hfail : r.SetControllerReference group (newPlacementRule group v) = Except.error e ∨
      ∃ pr, r.SetControllerReference group (newPlacementRule group v) = Except.ok pr ∧
        r.Client.Get (lookupKey group v) placementRuleGVK
          (ensurePlacementRuleLoop r group pre s).state = Except.error e ∧
        IsNotFound e = false) :
    (ensurePlacementRule r group s).err = some e ∧
      (ensurePlacementRule r group s).state = (ensurePlacementRuleLoop r group pre s).state ∧
      (ensurePlacementRule r group s).calls
        = (ensurePlacementRuleLoop r group pre s).calls ++
            (match r.SetControllerReference group (newPlacementRule group v) with
              | Except.error _ => []
              | Except.ok _ => [Call.Get (lookupKey group v) placementRuleGVK]) := by
  have hrun : ensurePlacementRule r group s
      = ensurePlacementRuleLoop r group (pre ++ v :: post) s := by
    unfold ensurePlacementRule
    rw [htargets]
  rw [hrun, loop_append r group pre (v :: post) s hpre]
  rcases hfail with hset | ⟨pr, hset, hget, hnf⟩
  · rw [loop_cons_setRef_error r group post _ hset, hset]
    exact ⟨rfl, rfl, rfl⟩
  · rw [loop_cons_get_error r group post _ hset hget hnf, hset]
    exact ⟨rfl, rfl, rfl⟩

/-- C11 on the Group `g` with the targets `a` and `b` and a store holding only
the Group, where the read for `b` times out: the timeout is returned, the
Dependent of `a` stays in the store, and the last call is the Get for `b`. -/
theorem ensurePlacementRule_stops_at_first_failure_witness :
    (ensurePlacementRule
        { Client := faultyClient timeoutOnB (fun _ => none), SetControllerReference := linkOwner }
        abGroup { groups := [abGroup], objects := [] }).err = some timeoutError ∧
      (ensurePlacementRule
        { Client := faultyClient timeoutOnB (fun _ => none), SetControllerReference := linkOwner }
        abGroup { groups := [abGroup], objects := [] }).state
        = { groups := [abGroup], objects := [ownedCandidate abGroup "a"] } ∧
      (ensurePlacementRule
        { Client := faultyClient timeoutOnB (fun _ => none), SetControllerReference := linkOwner }
        abGroup { groups := [abGroup], objects := [] }).calls
        = [Call.Get (lookupKey abGroup "a") placementRuleGVK,
           Call.Create (ownedCandidate abGroup "a"),
           Call.Get (lookupKey abGroup "b") placementRuleGVK] :=
  ensurePlacementRule_stops_at_first_failure
    { Client := faultyClient timeoutOnB (fun _ => none), SetControllerReference := linkOwner }
    abGroup ["a"] [] "b" { groups := [abGroup], objects := [] } timeoutError rfl rfl
    (Or.inr ⟨ownedCandidate abGroup "b", rfl, rfl, rfl⟩)

/-! ## C12: a Dependent that is already there -/

/-- C12 fails on the code: the Group `g` has the single target `a` and the store
holds its Dependent `g-a-placement-rule` in namespace `ns`.  The existence check
asks for `g-aplacement-rule`, is answered not-found, and `ensurePlacementRule`
passes the candidate of `a` to Create (which the store refuses). -/
theorem ensurePlacementRule_creates_despite_existing_dependent :
    Store.find { groups := [singleGroup], objects := [ownedCandidate singleGroup "a"] }
        placementRuleGVK { Namespace := "ns", Name := dependentName singleGroup "a" }
      = some (ownedCandidate singleGroup "a") ∧
    (lookupKey singleGroup "a").Name = "g-aplacement-rule" ∧
    dependentName singleGroup "a" = "g-a-placement-rule" ∧
    (ensurePlacementRule (storeReconciler linkOwner) singleGroup
        { groups := [singleGroup], objects := [ownedCandidate singleGroup "a"] }).calls
      = [Call.Get (lookupKey singleGroup "a") placementRuleGVK,
         Call.Create (ownedCandidate singleGroup "a")] ∧
    (createdObjects (ensurePlacementRule (storeReconciler linkOwner) singleGroup
        { groups := [singleGroup], objects := [ownedCandidate singleGroup "a"] }).calls).length
      = 1 := by
  refine ⟨rfl, ?_, ?_, rfl, ?_⟩ <;> decide

/-! ## C13: what is passed to Create -/

/-- With a registered owner type, what the library returns on a candidate carries
the owner reference of the Group, and nothing but it, in
`metadata.ownerReferences`. -/
theorem linkOwner_ownerReferences (group : Group) (v : String) (obj : Unstructured)
    (h : linkOwner group (newPlacementRule group v) = Except.ok obj) :
    NestedFieldNoCopy (Value.obj obj.Object) ["metadata", "ownerReferences"]
      = some (Value.arr [ownerReference group]) := by
  simp only [linkOwner, Except.ok.injEq] at h
  subst h
  simp [newPlacementRule, NestedFieldNoCopy, lookupField, setField,
    Unstructured.SetGroupVersionKind]

theorem createdObjects_loop {σ : Type} (r : GroupReconciler σ) (group : Group) :
    ∀ (vs : List String) (s : σ) (obj : Unstructured),
      Call.Create obj ∈ (ensurePlacementRuleLoop r group vs s).calls →
      ∃ v ∈ vs, r.SetControllerReference group (newPlacementRule group v) = Except.ok obj := by
  intro vs
  induction vs with
  | nil => intro s obj h; simp [loop_nil] at h
  | cons v rest ih =>
    intro s obj h
    cases hset : r.SetControllerReference group (newPlacementRule group v) with
    | error e =>
      rw [loop_cons_setRef_error r group rest s hset] at h
      simp at h
    | ok pr =>
      cases hget : r.Client.Get (lookupKey group v) placementRuleGVK s with
      | ok u =>
        rw [loop_cons_found r group rest s hset hget] at h
        simp only [List.mem_cons] at h
        rcases h with h | h
        · cases h
        · obtain ⟨w, hw, hok⟩ := ih s obj h
          exact ⟨w, List.mem_cons_of_mem _ hw, hok⟩
      | error e =>
        by_cases hnf : IsNotFound e = true
        · rw [loop_cons_notFound r group rest s hset hget hnf] at h
          simp only [List.mem_cons] at h
          rcases h with h | h | h
          · cases h
          · cases h
            exact ⟨v, List.mem_cons_self _ _, hset⟩
          · obtain ⟨w, hw, hok⟩ := ih _ obj h
            exact ⟨w, List.mem_cons_of_mem _ hw, hok⟩
        · have hnf' : IsNotFound e = false := by simpa using hnf
          rw [loop_cons_get_error r group rest s hset hget hnf'] at h
          simp at h

/-- C13: for every client, Group and store state, every object that
`ensurePlacementRule` passes to Create is what `SetControllerReference`, called
with the Group as owner, has returned with success on the candidate that
`newPlacementRule` builds for a target of the Group. -/
theorem created_objects_are_owned_candidates {σ : Type} (r : GroupReconciler σ)
    (group : Group) (s : σ) (obj : Unstructured)
    (hcall : Call.Create obj ∈ (ensurePlacementRule r group s).calls) :
    ∃ v ∈ group.Spec.Clusters,
      r.SetControllerReference group (newPlacementRule group v) = Except.ok obj :=
  createdObjects_loop r group group.Spec.Clusters s obj hcall

/-- C13 on the Group `g` with the targets `east` and `west` and a store holding
only the Group: the second call is the Create of the candidate of `east` with the
owner reference of `g`. -/
theorem created_objects_are_owned_candidates_witness :
    ∃ v ∈ eastWestGroup.Spec.Clusters,
      linkOwner eastWestGroup (newPlacementRule eastWestGroup v)
        = Except.ok (ownedCandidate eastWestGroup "east") :=
  created_objects_are_owned_candidates (storeReconciler linkOwner) eastWestGroup
    { groups := [eastWestGroup], objects := [] } (ownedCandidate eastWestGroup "east")
    (List.Mem.tail _ (List.Mem.head _))

/-! ## C14: Reconcile only adds through Create -/

/-- The state the loop leaves is the state its Create calls produce. -/
theorem loop_state_eq_replayCreates {σ : Type} (r : GroupReconciler σ) (group : Group) :
    ∀ (vs : List String) (s : σ),
      (ensurePlacementRuleLoop r group vs s).state
        = replayCreates r.Client (ensurePlacementRuleLoop r group vs s).calls s := by
  intro vs
  induction vs with
  | nil => intro s; rfl
  | cons v rest ih =>
    intro s
    cases hset : r.SetControllerReference group (newPlacementRule group v) with
    | error e =>
      rw [loop_cons_setRef_error r group rest s hset]
      rfl
    | ok pr =>
      cases hget : r.Client.Get (lookupKey group v) placementRuleGVK s with
      | ok u =>
        rw [loop_cons_found r group rest s hset hget]
        exact ih s
      | error e =>
        by_cases hnf : IsNotFound e = true
        · rw [loop_cons_notFound r group rest s hset hget hnf]
          exact ih _
        · have hnf' : IsNotFound e = false := by simpa using hnf
          rw [loop_cons_get_error r group rest s hset hget hnf']
          rfl

/-- The state Reconcile leaves is the state its Create calls produce. -/
theorem Reconcile_state_eq_replayCreates {σ : Type} (r : GroupReconciler σ) (req : Request)
    (s : σ) :
    (Reconcile r req s).state = replayCreates r.Client (Reconcile r req s).calls s := by
  cases hfetch : r.Client.GetGroup req.NamespacedName s with
  | error e =>
    by_cases hnf : IsNotFound e = true <;> simp [Reconcile, hfetch, hnf, replayCreates]
  | ok group =>
    rw [Reconcile_fetched r req s hfetch]
    exact loop_state_eq_replayCreates r group group.Spec.Clusters s

/-- Create calls that only add objects only add objects. -/
theorem replayCreates_extends (c : Client Store)
    (hcreate : ∀ (u : Unstructured) (s : Store), s.extendedBy (c.Create u s).2) :
    ∀ (calls : List Call) (s : Store), s.extendedBy (replayCreates c calls s) := by
  intro calls
  induction calls with
  | nil => intro s; exact extendedBy_refl s
  | cons call rest ih =>
    intro s
    cases call with
    | GetGroup key => exact ih s
    | Get key gvk => exact ih s
    | Create obj => exact extendedBy_trans (hcreate obj s) (ih _)

/-- C14: for every client (whatever its reads answer), request and store state,
on every path the state Reconcile leaves is the one its Create calls produce
from the initial state, in the order issued; so on a store whose Create only
adds objects, every Group and every object present before the run is present
after it, unchanged and in the same place, followed by the added objects. -/
theorem reconcile_changes_store_only_through_create (r : GroupReconciler Store)
    (hcreate : ∀ (u : Unstructured) (s : Store), s.extendedBy (r.Client.Create u s).2) (req : Request) (s : Store) :
    (Reconcile r req s).state = replayCreates r.Client (Reconcile r req s).calls s ∧
      (Reconcile r req s).state.groups = s.groups ∧
      ∃ added, (Reconcile r req s).state.objects = s.objects ++ added := by
  refine ⟨Reconcile_state_eq_replayCreates r req s, ?_⟩
  rw [Reconcile_state_eq_replayCreates r req s]
  exact replayCreates_extends r.Client hcreate _ s

/-- C14 on the Group `g` with the targets `east` and `west` and the in-memory
store holding the Group and the Dependent of `east`. -/
theorem reconcile_changes_store_only_through_create_witness :
    (Reconcile (storeReconciler linkOwner) (requestFor eastWestGroup)
        { groups := [eastWestGroup], objects := [ownedCandidate eastWestGroup "east"] }).state
      = replayCreates storeClient
          (Reconcile (storeReconciler linkOwner) (requestFor eastWestGroup)
            { groups := [eastWestGroup],
              objects := [ownedCandidate eastWestGroup "east"] }).calls
          { groups := [eastWestGroup], objects := [ownedCandidate eastWestGroup "east"] } ∧
      (Reconcile (storeReconciler linkOwner) (requestFor eastWestGroup)
        { groups := [eastWestGroup], objects := [ownedCandidate eastWestGroup "east"] }).state.groups
        = [eastWestGroup] ∧
      ∃ added,
        (Reconcile (storeReconciler linkOwner) (requestFor eastWestGroup)
          { groups := [eastWestGroup],
            objects := [ownedCandidate eastWestGroup "east"] }).state.objects
          = [ownedCandidate eastWestGroup "east"] ++ added :=
  reconcile_changes_store_only_through_create (storeReconciler linkOwner)
    storeClient_Create_extends (requestFor eastWestGroup)
    { groups := [eastWestGroup], objects := [ownedCandidate eastWestGroup "east"] }

/-! ## C15: targets in list order, without deduplication -/

/-- The existence checks of the loop follow the targets, and so do its Create
calls. -/
theorem loop_calls_in_order {σ : Type} (r : GroupReconciler σ) (group : Group) :
    ∀ (vs : List String) (s : σ),
      checkedKeys (ensurePlacementRuleLoop r group vs s).calls <+: vs.map (lookupKey group) ∧
      ((ensurePlacementRuleLoop r group vs s).err = none →
        checkedKeys (ensurePlacementRuleLoop r group vs s).calls = vs.map (lookupKey group)) ∧
      List.Sublist (createdObjects (ensurePlacementRuleLoop r group vs s).calls)
        (ownedCandidates r group vs) := by
  intro vs
  induction vs with
  | nil =>
    intro s
    exact ⟨List.prefix_refl _, fun _ => rfl, List.Sublist.refl _⟩
  | cons v rest ih =>
    intro s
    cases hset : r.SetControllerReference group (newPlacementRule group v) with
    | error e =>
      rw [loop_cons_setRef_error r group rest s hset]
      refine ⟨List.nil_prefix, fun h => (by cases h), List.nil_sublist _⟩
    | ok pr =>
      have hown : ownedCandidates r group (v :: rest) = pr :: ownedCandidates r group rest := by
        simp [ownedCandidates, hset]
      cases hget : r.Client.Get (lookupKey group v) placementRuleGVK s with
      | ok u =>
        obtain ⟨h1, h2, h3⟩ := ih s
        rw [loop_cons_found r group rest s hset hget, hown]
        refine ⟨?_, fun h => ?_, ?_⟩
        · simpa [checkedKeys, List.prefix_cons_inj] using h1
        · simpa [checkedKeys] using h2 h
        · simpa [createdObjects] using List.Sublist.cons pr h3
      | error e =>
        by_cases hnf : IsNotFound e = true
        · obtain ⟨h1, h2, h3⟩ := ih (r.Client.Create pr s).2
          rw [loop_cons_notFound r group rest s hset hget hnf, hown]
          refine ⟨?_, fun h => ?_, ?_⟩
          · simpa [checkedKeys, List.prefix_cons_inj] using h1
          · simpa [checkedKeys] using h2 h
          · simpa [createdObjects] using List.Sublist.cons₂ pr h3
        · have hnf' : IsNotFound e = false := by simpa using hnf
          rw [loop_cons_get_error r group rest s hset hget hnf', hown]
          refine ⟨?_, fun h => (by cases h), ?_⟩
          · simp [checkedKeys, List.prefix_cons_inj]
          · simp [createdObjects]

/-- C15: for every client, Group and store state, the keys of the existence
checks that `ensurePlacementRule` issues, in the order issued, are a prefix of
the target list mapped to its existence-check keys, and the whole of it when nil
is returned; the objects it passes to Create, in the order issued, are a
subsequence of the candidates of the targets in list order.  A target listed
twice is checked twice. -/
theorem ensurePlacementRule_calls_in_list_order {σ : Type} (r : GroupReconciler σ)
    (group : Group) (s : σ) :
    checkedKeys (ensurePlacementRule r group s).calls
        <+: group.Spec.Clusters.map (lookupKey group) ∧
      ((ensurePlacementRule r group s).err = none →
        checkedKeys (ensurePlacementRule r group s).calls
          = group.Spec.Clusters.map (lookupKey group)) ∧
      List.Sublist (createdObjects (ensurePlacementRule r group s).calls)
        (ownedCandidates r group group.Spec.Clusters) :=
  loop_calls_in_order r group group.Spec.Clusters s

/-- C15 on the Group `g` that lists `a` twice and a store holding only the
Group: nil is returned and the key of `a` is checked twice. -/
theorem ensurePlacementRule_calls_in_list_order_witness :
    checkedKeys (ensurePlacementRule (storeReconciler linkOwner) dupGroup
        { groups := [dupGroup], objects := [] }).calls
      = [{ Namespace := "ns", Name := "g-aplacement-rule" },
         { Namespace := "ns", Name := "g-aplacement-rule" }] :=
  (ensurePlacementRule_calls_in_list_order (storeReconciler linkOwner) dupGroup
    { groups := [dupGroup], objects := [] }).2.1 rfl

/-! ## C16: the name is injective in each argument -/

/-- C16: the name `newPlacementRule` gives the candidate is injective in each
argument separately: for Groups of the same name, different cluster strings give
different names, and for the same cluster string, Groups of different names give
different names. -/
theorem newPlacementRule_name_injective_in_each_argument (group group' : Group)
    (cluster cluster' : String) :
    (group.Name = group'.Name → cluster ≠ cluster' →
        (newPlacementRule group cluster).GetName ≠ (newPlacementRule group' cluster').GetName) ∧
      (group.Name ≠ group'.Name →
        (newPlacementRule group cluster).GetName ≠ (newPlacementRule group' cluster).GetName) := by
  simp only [newPlacementRule_GetName, dependentName]
  constructor
  · intro hname hne h
    rw [hname] at h
    exact hne (str_append_left_cancel (str_append_right_cancel h))
  · intro hne h
    have h1 := str_append_right_cancel (str_append_right_cancel h)
    exact hne (str_append_right_cancel h1)

/-- C16 on the Group name `g` with the clusters `east` and `west`, and on the
cluster `east` with the Group names `g` and `h`. -/
theorem newPlacementRule_name_injective_in_each_argument_witness :
    (newPlacementRule eastWestGroup "east").GetName
        ≠ (newPlacementRule eastWestGroup "west").GetName ∧
      (newPlacementRule eastWestGroup "east").GetName
        ≠ (newPlacementRule { eastWestGroup with Name := "h" } "east").GetName :=
  ⟨(newPlacementRule_name_injective_in_each_argument eastWestGroup eastWestGroup
      "east" "west").1 rfl (by decide),
    (newPlacementRule_name_injective_in_each_argument eastWestGroup
      { eastWestGroup with Name := "h" } "east" "east").2 (by decide)⟩

end RanLcm
